import Mathlib

/-!
Verification development for the protein-tracker repository (src/App.tsx,
src/types.ts, src/unnamed/part_000).

The two application variants (App.tsx and the unnamed variant part_000)
share their data model and most of their logic; where they differ
(monthly history window, goal editing, commit path) both are embedded,
with the source lines noted on each definition.

Modelling conventions, fixed throughout:
* JavaScript numbers are modelled by `JSN`: exact rationals (normalized
  fractions) plus the special values NaN, +Infinity and -Infinity.  All
  values reached by the claims are integer-scale, where rational and
  IEEE-double arithmetic agree exactly; NaN/Infinity propagation follows
  the ECMAScript rules.
* An instant is its epoch-millisecond value (an integer).  The local
  timezone is a fixed offset `tz` in milliseconds added to an instant to
  obtain local clock time (Korea, the app's locale, has no DST).
* The `'sv-SE'` locale date string `YYYY-MM-DD` and the ISO month slice
  `YYYY-MM` are injective renderings of the civil (year, month, day)
  triple resp. (year, month) pair, so bucket keys are modelled as those
  tuples and string equality as tuple equality.
* `Date` component arithmetic (`getFullYear`/`getMonth`/`getDate`/
  `setDate`, the `new Date(y, m, d)` normalisation) is modelled by a
  verified Gregorian day-number ↔ civil-triple conversion below.
-/

namespace ProteinTracker

/-- An exact rational `n / d`.  Every value built by the operations below
goes through `mkFrac`, which keeps `d > 0` and `gcd n d = 1`, so
structural equality coincides with rational equality. -/
structure Frac where
  n : ℤ
  d : ℤ
deriving DecidableEq

/-- Normalizing constructor: positive denominator, lowest terms. -/
def mkFrac (a b : ℤ) : Frac :=
  let s : ℤ := if b < 0 then -1 else 1
  let a2 := s * a
  let b2 := s * b
  let g : ℤ := (Int.gcd a2 b2 : ℤ)
  if g = 0 then ⟨0, 1⟩ else ⟨a2 / g, b2 / g⟩

/-- The integer `k` as a fraction. -/
def fracOfInt (k : ℤ) : Frac := ⟨k, 1⟩

def fracAdd (x y : Frac) : Frac := mkFrac (x.n * y.d + y.n * x.d) (x.d * y.d)

def fracMul (x y : Frac) : Frac := mkFrac (x.n * y.n) (x.d * y.d)

def fracDiv (x y : Frac) : Frac := mkFrac (x.n * y.d) (x.d * y.n)

/-- `min` on fractions (denominators positive by invariant). -/
def fracMin (x y : Frac) : Frac :=
  if x.n * y.d ≤ y.n * x.d then x else y

/-- A JavaScript number: NaN, the two infinities, or a finite value. -/
inductive JSN where
  | nan : JSN
  | pinf : JSN
  | ninf : JSN
  | num : Frac → JSN
deriving DecidableEq

/-- The integer `k` as a JS number. -/
def jsInt (k : ℤ) : JSN := JSN.num ⟨k, 1⟩

/-- JS `+` on numbers: NaN absorbs, opposite infinities give NaN. -/
def jsAdd : JSN → JSN → JSN
  | JSN.nan, _ => JSN.nan
  | _, JSN.nan => JSN.nan
  | JSN.pinf, JSN.ninf => JSN.nan
  | JSN.ninf, JSN.pinf => JSN.nan
  | JSN.pinf, _ => JSN.pinf
  | _, JSN.pinf => JSN.pinf
  | JSN.ninf, _ => JSN.ninf
  | _, JSN.ninf => JSN.ninf
  | JSN.num a, JSN.num b => JSN.num (fracAdd a b)

/-- JS `*` on numbers: NaN absorbs, infinity times zero is NaN. -/
def jsMul : JSN → JSN → JSN
  | JSN.nan, _ => JSN.nan
  | _, JSN.nan => JSN.nan
  | JSN.num a, JSN.num b => JSN.num (fracMul a b)
  | JSN.pinf, JSN.pinf => JSN.pinf
  | JSN.pinf, JSN.ninf => JSN.ninf
  | JSN.ninf, JSN.pinf => JSN.ninf
  | JSN.ninf, JSN.ninf => JSN.pinf
  | JSN.pinf, JSN.num b => if b.n = 0 then JSN.nan else if 0 < b.n then JSN.pinf else JSN.ninf
  | JSN.num a, JSN.pinf => if a.n = 0 then JSN.nan else if 0 < a.n then JSN.pinf else JSN.ninf
  | JSN.ninf, JSN.num b => if b.n = 0 then JSN.nan else if 0 < b.n then JSN.ninf else JSN.pinf
  | JSN.num a, JSN.ninf => if a.n = 0 then JSN.nan else if 0 < a.n then JSN.ninf else JSN.pinf

/-- JS `/` on numbers: 0/0 is NaN, x/0 is a signed infinity, finite
division is exact (zero modelled unsigned). -/
def jsDiv : JSN → JSN → JSN
  | JSN.nan, _ => JSN.nan
  | _, JSN.nan => JSN.nan
  | JSN.num a, JSN.num b =>
      if b.n = 0 then (if a.n = 0 then JSN.nan else if 0 < a.n then JSN.pinf else JSN.ninf)
      else JSN.num (fracDiv a b)
  | JSN.pinf, JSN.num b => if 0 ≤ b.n then JSN.pinf else JSN.ninf
  | JSN.ninf, JSN.num b => if 0 ≤ b.n then JSN.ninf else JSN.pinf
  | JSN.num _, JSN.pinf => JSN.num ⟨0, 1⟩
  | JSN.num _, JSN.ninf => JSN.num ⟨0, 1⟩
  | _, _ => JSN.nan

/-- JS `Math.min`: NaN if either argument is NaN. -/
def jsMin : JSN → JSN → JSN
  | JSN.nan, _ => JSN.nan
  | _, JSN.nan => JSN.nan
  | JSN.ninf, _ => JSN.ninf
  | _, JSN.ninf => JSN.ninf
  | JSN.pinf, x => x
  | x, JSN.pinf => x
  | JSN.num a, JSN.num b => JSN.num (fracMin a b)

/-- JS `Math.round`: half-up, `floor (x + 1/2)`, on finite values (the
integer floor division realises the rational floor since denominators
are positive); the special values map to themselves. -/
def jsRound : JSN → JSN
  | JSN.num q => JSN.num ⟨(2 * q.n + q.d) / (2 * q.d), 1⟩
  | x => x

/-- JS `x || 0` on a number: the falsy numbers NaN and 0 are replaced
by 0 (the negative-zero distinction is not modelled). -/
def jsOrZero (x : JSN) : JSN :=
  if x = JSN.nan ∨ x = JSN.num ⟨0, 1⟩ then JSN.num ⟨0, 1⟩ else x

/-- JS whitespace, restricted to the characters that can occur in the
app's text inputs. -/
def isWS (c : Char) : Bool :=
  c = ' ' ∨ c = '\t' ∨ c = '\n' ∨ c = '\r'

/-- Leading sign: returns (isNegative, rest). -/
def readSign : List Char → Bool × List Char
  | '-' :: cs => (true, cs)
  | '+' :: cs => (false, cs)
  | cs => (false, cs)

/-- Digit-string value (base 10). -/
def natFromDigits (ds : List Char) : ℕ :=
  ds.foldl (fun a c => 10 * a + (c.toNat - '0'.toNat)) 0

/-- JS `parseInt(s, 10)`: skip leading whitespace, optional sign, then
the longest run of decimal digits; NaN (`none`) when no digit follows. -/
def parseIntDec (s : String) : Option ℤ :=
  let cs := s.toList.dropWhile isWS
  let sr := readSign cs
  let ds := sr.2.takeWhile Char.isDigit
  if ds.isEmpty then none
  else some (if sr.1 then -(natFromDigits ds : ℤ) else (natFromDigits ds : ℤ))

/-- Scale a fraction by a power of ten with integer exponent. -/
def scalePow10 (q : Frac) (e : ℤ) : Frac :=
  if 0 ≤ e then mkFrac (q.n * (10 : ℤ) ^ e.toNat) q.d
  else mkFrac q.n (q.d * (10 : ℤ) ^ (-e).toNat)

/-- Mantissa value `intPart.fracPart` as a normalized fraction. -/
def mantissaFrac (intDs fracDs : List Char) : Frac :=
  mkFrac ((natFromDigits intDs : ℤ) * (10 : ℤ) ^ fracDs.length + (natFromDigits fracDs : ℤ))
    ((10 : ℤ) ^ fracDs.length)

/-- Unsigned body of JS `parseFloat`: `Infinity`, or digits with optional
fraction and optional exponent (an `e` not followed by a digit is
ignored, as in JS); NaN when no digit is found. -/
def parseFloatCore (cs : List Char) : JSN :=
  match cs with
  | 'I' :: 'n' :: 'f' :: 'i' :: 'n' :: 'i' :: 't' :: 'y' :: _ => JSN.pinf
  | _ =>
    let intDs := cs.takeWhile Char.isDigit
    let rest := cs.dropWhile Char.isDigit
    let fr : List Char × List Char :=
      match rest with
      | '.' :: r => (r.takeWhile Char.isDigit, r.dropWhile Char.isDigit)
      | _ => ([], rest)
    if intDs.isEmpty ∧ fr.1.isEmpty then JSN.nan
    else
      let e : ℤ :=
        match fr.2 with
        | c :: r =>
          if c = 'e' ∨ c = 'E' then
            let es := readSign r
            let eds := es.2.takeWhile Char.isDigit
            if eds.isEmpty then 0
            else if es.1 then -(natFromDigits eds : ℤ) else (natFromDigits eds : ℤ)
          else 0
        | [] => 0
      JSN.num (scalePow10 (mantissaFrac intDs fr.1) e)

/-- JS `parseFloat(s)`. -/
def parseFloat (s : String) : JSN :=
  let cs := s.toList.dropWhile isWS
  let sr := readSign cs
  match parseFloatCore sr.2 with
  | JSN.num q => JSN.num (if sr.1 then ⟨-q.n, q.d⟩ else q)
  | JSN.pinf => if sr.1 then JSN.ninf else JSN.pinf
  | x => x

/-- Strict full-string numeric body for the JS `Number(...)` coercion
(decimal and `Infinity` forms; hex/octal/binary literals cannot occur in
a `type="number"` input and are not modelled). -/
def jsNumberCore (cs : List Char) : JSN :=
  match cs with
  | ['I', 'n', 'f', 'i', 'n', 'i', 't', 'y'] => JSN.pinf
  | _ =>
    let intDs := cs.takeWhile Char.isDigit
    let rest := cs.dropWhile Char.isDigit
    let fr : List Char × List Char :=
      match rest with
      | '.' :: r => (r.takeWhile Char.isDigit, r.dropWhile Char.isDigit)
      | _ => ([], rest)
    if intDs.isEmpty ∧ fr.1.isEmpty then JSN.nan
    else
      match fr.2 with
      | [] => JSN.num (mantissaFrac intDs fr.1)
      | c :: r =>
        if c = 'e' ∨ c = 'E' then
          let es := readSign r
          let eds := es.2.takeWhile Char.isDigit
          let rest2 := es.2.dropWhile Char.isDigit
          if eds.isEmpty ∨ ¬rest2.isEmpty then JSN.nan
          else JSN.num (scalePow10 (mantissaFrac intDs fr.1)
            (if es.1 then -(natFromDigits eds : ℤ) else (natFromDigits eds : ℤ)))
        else JSN.nan

/-- JS `Number(s)`: trim, empty gives 0, otherwise the whole remaining
string must be a numeric literal, else NaN. -/
def jsNumber (s : String) : JSN :=
  let cs := ((s.toList.dropWhile isWS).reverse.dropWhile isWS).reverse
  if cs.isEmpty then JSN.num ⟨0, 1⟩
  else
    let sr := readSign cs
    match jsNumberCore sr.2 with
    | JSN.num q => JSN.num (if sr.1 then ⟨-q.n, q.d⟩ else q)
    | JSN.pinf => if sr.1 then JSN.ninf else JSN.pinf
    | x => x

/-- JS `String.prototype.trim`. -/
def trimS (s : String) : String :=
  String.mk (((s.toList.dropWhile isWS).reverse.dropWhile isWS).reverse)

end ProteinTracker

namespace ProteinTracker

/-!
### Gregorian calendar arithmetic

`Date` in the source resolves instants to civil dates through the host
calendar.  The model uses day numbers (days since 1970-01-01) and a
civil conversion pair proved to be mutually inverse below:
`daysFromCivil` is the standard era/year-of-era/day-of-year formula and
`civilFromDays` decomposes a day number era → century → 4-year block →
year with clamping for the irregular final blocks.
-/

/-- Day number of civil date `(y, m, d)`; valid for every year, month in
`[1,12]` and arbitrary day offset `d` (as produced by `setDate`). -/
def daysFromCivil (y m d : ℤ) : ℤ :=
  let yy := if m ≤ 2 then y - 1 else y
  let era := yy / 400
  let yoe := yy - era * 400
  let mp := if m ≤ 2 then m + 9 else m - 3
  let doy := (153 * mp + 2) / 5 + d - 1
  let doe := yoe * 365 + yoe / 4 - yoe / 100 + doy
  era * 146097 + doe - 719468

/-- Civil date `(y, m, d)` of a day number. -/
def civilFromDays (z : ℤ) : ℤ × ℤ × ℤ :=
  let z2 := z + 719468
  let era := z2 / 146097
  let doe := z2 - era * 146097
  let c := min (doe / 36524) 3
  let dc := doe - 36524 * c
  let q := min (dc / 1461) 24
  let dq := dc - 1461 * q
  let r := min (dq / 365) 3
  let doy := dq - 365 * r
  let yoe := 100 * c + 4 * q + r
  let y := era * 400 + yoe
  let mp := (5 * doy + 2) / 153
  let d := doy - (153 * mp + 2) / 5 + 1
  let m := if mp < 10 then mp + 3 else mp - 9
  (if m ≤ 2 then y + 1 else y, m, d)

/-- JS `new Date(y, monthIndex, day).getTime()` at local midnight, as a
day number: month and day overflow/underflow normalise exactly as in
ECMAScript `MakeDay`. -/
def mkDayNumber (y monthIndex day : ℤ) : ℤ :=
  let ym := y * 12 + monthIndex
  daysFromCivil (ym / 12) (ym % 12 + 1) 1 + (day - 1)

/-- Local calendar day number of an instant (epoch ms) under a fixed
timezone offset `tz` in ms. -/
def localDay (tz t : ℤ) : ℤ := (t + tz) / 86400000

/-- Local civil date of an instant: the `YYYY-MM-DD` bucket key. -/
def localCivil (tz t : ℤ) : ℤ × ℤ × ℤ := civilFromDays (localDay tz t)

/-- JS `getDay()` on a day number: 0 = Sunday (1970-01-01 was a
Thursday). -/
def dayOfWeek (z : ℤ) : ℤ := (z + 4) % 7

end ProteinTracker


namespace ProteinTracker

/-!
### Data model and application operations

`MealLog` mirrors src/types.ts (`category` is a string there as well: the
enumeration is a TypeScript union of string literals, and the variants
cast arbitrary strings into it).  The UI handlers below are the
App.tsx / part_000 functions, with React state passing made explicit.
-/

/-- src/types.ts `MealLog`. -/
structure MealLog where
  id : String
  timestamp : ℤ
  foodName : String
  proteinGrams : JSN
  category : String
  imageUrl : Option String
deriving DecidableEq

/-- src/types.ts `DailySummary` for the weekly view (`date` is the
`YYYY-MM-DD` key, modelled structurally). -/
structure DaySummary where
  date : ℤ × ℤ × ℤ
  totalProtein : JSN
  goal : JSN
deriving DecidableEq

/-- src/types.ts `DailySummary` for the monthly view (`date` is the
`YYYY-MM` key, modelled structurally). -/
structure MonthSummary where
  date : ℤ × ℤ
  totalProtein : JSN
  goal : JSN
deriving DecidableEq

/-- The edit branch of `handleSaveMeal` (src/App.tsx lines 198-210):
map over the store, replacing the four mutable fields of every record
whose id matches, spreading the rest. -/
def applyEdit (editingMealId name : String) (protein : JSN) (cat : String)
    (img : Option String) (meals : List MealLog) : List MealLog :=
  meals.map fun meal =>
    if meal.id = editingMealId then
      { meal with foodName := name, proteinGrams := protein,
                  category := cat, imageUrl := img }
    else meal

/-- Timestamp of a created record (src/App.tsx lines 212-218):
`new Date(pendingDate)` parses the date-only string at UTC midnight,
then `setHours(now local hours/minutes/seconds)` re-anchors it on the
local calendar day of that instant, keeping its millisecond field. -/
def newMealTimestamp (pendingDate : ℤ × ℤ × ℤ) (nowMs tz : ℤ) : ℤ :=
  let base := daysFromCivil pendingDate.1 pendingDate.2.1 pendingDate.2.2 * 86400000
  let nowLocal := nowMs + tz
  let baseLocal := base + tz
  baseLocal / 86400000 * 86400000 +
    nowLocal / 3600000 % 24 * 3600000 +
    nowLocal / 60000 % 60 * 60000 +
    nowLocal / 1000 % 60 * 1000 +
    baseLocal % 1000 - tz

/-- src/App.tsx `handleSaveMeal` (lines 193-230): validation is
`!pendingFoodName.trim() || isNaN(parseFloat(pendingProtein))`; on an
edit the matching record is patched, otherwise a new record with a
fresh id (`Math.random()` output passed in as `newId`) is prepended. -/
def handleSaveMeal (pendingFoodName pendingProtein pendingCategory : String)
    (pendingImage : Option String) (pendingDate : ℤ × ℤ × ℤ)
    (editingMealId : Option String) (newId : String) (nowMs tz : ℤ)
    (meals : List MealLog) : List MealLog :=
  let protein := parseFloat pendingProtein
  if trimS pendingFoodName = "" ∨ protein = JSN.nan then meals
  else
    match editingMealId with
    | some eid =>
        applyEdit eid pendingFoodName (jsRound protein) pendingCategory pendingImage meals
    | none =>
        { id := newId
          timestamp := newMealTimestamp pendingDate nowMs tz
          foodName := pendingFoodName
          proteinGrams := jsRound protein
          category := pendingCategory
          imageUrl := pendingImage } :: meals

/-- part_000 `analyzeMeal` success path (lines 164-174): the
recognition result is committed without validation; `category` is the
returned string with only the empty string replaced by `Other`. -/
def analyzeMealCommit (resFoodName : String) (resProteinGrams : JSN)
    (resCategory : String) (base64Data : Option String) (newId : String)
    (nowMs : ℤ) (meals : List MealLog) : List MealLog :=
  { id := newId
    timestamp := nowMs
    foodName := resFoodName
    proteinGrams := jsRound resProteinGrams
    category := if resCategory = "" then "Other" else resCategory
    imageUrl := base64Data } :: meals

/-- `deleteMeal` (src/App.tsx lines 232-236), the confirmed path. -/
def deleteMeal (id : String) (meals : List MealLog) : List MealLog :=
  meals.filter fun m => m.id != id

/-- Goal edit, App.tsx variant (goal input `onBlur`, lines 296-313):
`parseInt` then accept only when not NaN and `> 0`. -/
def goalOnBlur (prior : JSN) (value : String) : JSN :=
  match parseIntDec value with
  | none => prior
  | some n => if 0 < n then jsInt n else prior

/-- Goal edit, part_000 variant (goal input `onChange`, line 353):
`setGoal(Number(e.target.value) || 0)` — no validation. -/
def goalOnChange (value : String) : JSN :=
  jsOrZero (jsNumber value)

/-- Goal initializer (App.tsx lines 60-63, default 60; part_000 lines
72-75, default 120): `saved ? parseInt(saved, 10) : default` — the
parse result is not re-validated. -/
def initGoal (defaultGoal : ℤ) (saved : Option String) : JSN :=
  match saved with
  | none => jsInt defaultGoal
  | some s =>
    if s = "" then jsInt defaultGoal
    else
      match parseIntDec s with
      | none => JSN.nan
      | some n => jsInt n

/-- Stable insertion step for timestamp-descending order (records with
equal timestamps keep their relative order, as JS stable sort does with
the comparator `(a, b) => b.timestamp - a.timestamp`). -/
def insertTsDesc (x : MealLog) : List MealLog → List MealLog
  | [] => [x]
  | y :: ys => if y.timestamp < x.timestamp then x :: y :: ys else y :: insertTsDesc x ys

/-- Stable sort by timestamp descending. -/
def sortTsDesc (l : List MealLog) : List MealLog :=
  l.foldr insertTsDesc []

/-- `todayMeals` (App.tsx lines 93-97): filter to the local day of
"now", sort by timestamp descending (stable). -/
def todayMeals (meals : List MealLog) (tz nowMs : ℤ) : List MealLog :=
  sortTsDesc (meals.filter fun m => decide (localCivil tz m.timestamp = localCivil tz nowMs))

/-- `todayStats.protein` (App.tsx lines 99-103). -/
def todayProtein (meals : List MealLog) (tz nowMs : ℤ) : JSN :=
  (todayMeals meals tz nowMs).foldl (fun acc cur => jsAdd acc cur.proteinGrams) (jsInt 0)

/-- `progressPercent` (App.tsx line 105):
`Math.min((todayStats.protein / goal) * 100, 100)`. -/
def progressPercent (total goalv : JSN) : JSN :=
  jsMin (jsMul (jsDiv total goalv) (jsInt 100)) (jsInt 100)

/-- Weekly branch of `historyData` (App.tsx lines 250-262, identical in
part_000 lines 223-239): Monday of the current week via
`getDate() - (day === 0 ? 6 : day - 1)`, then 7 consecutive days. -/
def weeklySummaries (meals : List MealLog) (goalv : JSN) (nowMs tz : ℤ) :
    List DaySummary :=
  let nowD := localDay tz nowMs
  let c := civilFromDays nowD
  let day := dayOfWeek nowD
  let diff := c.2.2 - (if day = 0 then 6 else day - 1)
  let startOfWeek := mkDayNumber c.1 (c.2.1 - 1) diff
  (List.range 7).map fun (i : ℕ) =>
    let sc := civilFromDays startOfWeek
    let ds := civilFromDays (mkDayNumber sc.1 (sc.2.1 - 1) (sc.2.2 + (i : ℤ)))
    let dayMeals := meals.filter fun m => decide (localCivil tz m.timestamp = ds)
    { date := ds
      totalProtein := dayMeals.foldl (fun acc cur => jsAdd acc cur.proteinGrams) (jsInt 0)
      goal := goalv }

/-- `toISOString().slice(0, 7)` of an instant: the UTC year/month. -/
def utcMonthKey (t : ℤ) : ℤ × ℤ :=
  let c := civilFromDays (t / 86400000)
  (c.1, c.2.1)

/-- Monthly branch of `historyData`, App.tsx variant (lines 263-273):
walks i = -2..2 around the current month; keys and bucket membership
via `toISOString().slice(0, 7)` (UTC); `daysInMonth` from the local
first-of-month via `new Date(y, m + 1, 0).getDate()`. -/
def monthlySummariesApp (meals : List MealLog) (goalv : JSN) (nowMs tz : ℤ) :
    List MonthSummary :=
  let nowD := localDay tz nowMs
  let c := civilFromDays nowD
  (List.range 5).map fun (j : ℕ) =>
    let i : ℤ := (j : ℤ) - 2
    let dDay := mkDayNumber c.1 (c.2.1 - 1 + i) 1
    let monthStr := utcMonthKey (dDay * 86400000 - tz)
    let monthMeals := meals.filter fun m => decide (utcMonthKey m.timestamp = monthStr)
    let dc := civilFromDays dDay
    let daysInMonth := (civilFromDays (mkDayNumber dc.1 dc.2.1 0)).2.2
    { date := monthStr
      totalProtein := monthMeals.foldl (fun acc cur => jsAdd acc cur.proteinGrams) (jsInt 0)
      goal := jsMul goalv (jsInt daysInMonth) }

/-- Monthly branch of `historyData`, part_000 variant (lines 240-263):
walks i = 5 down to 0 before the current month; bucket membership via
local `getFullYear`/`getMonth`; `goal: goal * 30` with a fixed 30. -/
def monthlySummariesPart (meals : List MealLog) (goalv : JSN) (nowMs tz : ℤ) :
    List MonthSummary :=
  let nowD := localDay tz nowMs
  let c := civilFromDays nowD
  (List.range 6).map fun (j : ℕ) =>
    let i : ℤ := 5 - (j : ℤ)
    let dc := civilFromDays (mkDayNumber c.1 (c.2.1 - 1 - i) 1)
    let monthMeals := meals.filter fun m =>
      decide ((localCivil tz m.timestamp).1 = dc.1 ∧
        (localCivil tz m.timestamp).2.1 = dc.2.1)
    { date := (dc.1, dc.2.1)
      totalProtein := monthMeals.foldl (fun acc cur => jsAdd acc cur.proteinGrams) (jsInt 0)
      goal := jsMul goalv (jsInt 30) }

/-- The `YYYY-MM-DD` key of a record (`toLocaleDateString('sv-SE')`). -/
def localDayKey (tz t : ℤ) : ℤ × ℤ × ℤ := localCivil tz t

/-- The year/month pair the part_000 monthly filter classifies a record
under (`getFullYear()`/`getMonth()`, 1-based month). -/
def partMealMonthKey (tz t : ℤ) : ℤ × ℤ :=
  ((localCivil tz t).1, (localCivil tz t).2.1)

/-- Specification-side: the Monday of the week containing day `z`. -/
def mondayOf (z : ℤ) : ℤ := z - (dayOfWeek z + 6) % 7

/-- Specification-side: year/month pair of a month number
(`year * 12 + month - 1`). -/
def monthKeyOfNum (mn : ℤ) : ℤ × ℤ := (mn / 12, mn % 12 + 1)

/-- Month number of the local civil month of an instant. -/
def localMonthNum (tz t : ℤ) : ℤ :=
  (localCivil tz t).1 * 12 + (localCivil tz t).2.1 - 1


/-!
### Calendar theorems
-/

set_option maxHeartbeats 1000000 in
/-- The civil conversion is a right inverse of the day-number map. -/
theorem days_civil_roundtrip (z : ℤ) :
    daysFromCivil (civilFromDays z).1 (civilFromDays z).2.1 (civilFromDays z).2.2 = z := by
  simp only [civilFromDays, daysFromCivil]
  generalize hera : (z + 719468) / 146097 = era
  generalize hdoe : z + 719468 - era * 146097 = doe
  have h1 : 0 ≤ doe ∧ doe < 146097 := by omega
  generalize hc : min (doe / 36524) 3 = c
  have h2 : 0 ≤ c ∧ c ≤ 3 := by omega
  generalize hdc : doe - 36524 * c = dc
  have h3 : 0 ≤ dc ∧ dc ≤ 36524 := by omega
  generalize hq : min (dc / 1461) 24 = q
  have h4 : 0 ≤ q ∧ q ≤ 24 := by omega
  generalize hdq : dc - 1461 * q = dq
  have h5 : 0 ≤ dq ∧ dq ≤ 1460 := by omega
  generalize hr : min (dq / 365) 3 = r
  have h6 : 0 ≤ r ∧ r ≤ 3 := by omega
  generalize hdoy : dq - 365 * r = doy
  have h7 : 0 ≤ doy ∧ doy ≤ 365 := by omega
  generalize hmp : (5 * doy + 2) / 153 = mp
  have h8 : 0 ≤ mp ∧ mp ≤ 11 := by omega
  have h9 : (153 * mp + 2) / 5 ≤ doy ∧ doy - (153 * mp + 2) / 5 ≤ 30 := by omega
  split <;> split <;>
    (try simp only [Int.add_sub_cancel]) <;>
    (try omega) <;>
    (have k1 : (era * 400 + (100 * c + 4 * q + r)) / 400 = era := by omega) <;>
    (have k2 : (era * 400 + (100 * c + 4 * q + r) -
        (era * 400 + (100 * c + 4 * q + r)) / 400 * 400) / 4 = 25 * c + q := by omega) <;>
    (have k3 : (era * 400 + (100 * c + 4 * q + r) -
        (era * 400 + (100 * c + 4 * q + r)) / 400 * 400) / 100 = c := by omega) <;>
    omega

set_option maxHeartbeats 1000000 in
/-- Month and day components of a civil date are in calendar range. -/
theorem civilFromDays_bounds (z : ℤ) :
    1 ≤ (civilFromDays z).2.1 ∧ (civilFromDays z).2.1 ≤ 12 ∧
    1 ≤ (civilFromDays z).2.2 ∧ (civilFromDays z).2.2 ≤ 31 := by
  simp only [civilFromDays]
  generalize hera : (z + 719468) / 146097 = era
  generalize hdoe : z + 719468 - era * 146097 = doe
  have h1 : 0 ≤ doe ∧ doe < 146097 := by omega
  generalize hc : min (doe / 36524) 3 = c
  have h2 : 0 ≤ c ∧ c ≤ 3 := by omega
  generalize hdc : doe - 36524 * c = dc
  have h3 : 0 ≤ dc ∧ dc ≤ 36524 := by omega
  generalize hq : min (dc / 1461) 24 = q
  have h4 : 0 ≤ q ∧ q ≤ 24 := by omega
  generalize hdq : dc - 1461 * q = dq
  have h5 : 0 ≤ dq ∧ dq ≤ 1460 := by omega
  generalize hr : min (dq / 365) 3 = r
  have h6 : 0 ≤ r ∧ r ≤ 3 := by omega
  generalize hdoy : dq - 365 * r = doy
  have h7 : 0 ≤ doy ∧ doy ≤ 365 := by omega
  generalize hmp : (5 * doy + 2) / 153 = mp
  have h8 : 0 ≤ mp ∧ mp ≤ 11 := by omega
  have h9 : (153 * mp + 2) / 5 ≤ doy ∧ doy - (153 * mp + 2) / 5 ≤ 30 := by omega
  refine ⟨?_, ?_, ?_, ?_⟩ <;> (try split) <;> omega

/-- `daysFromCivil` is linear in the day argument. -/
theorem daysFromCivil_linear (y m d : ℤ) :
    daysFromCivil y m d = daysFromCivil y m 1 + d - 1 := by
  simp only [daysFromCivil]
  split <;> omega

set_option maxHeartbeats 1000000 in
/-- Reconstruction: `civilFromDays` applied to an era/century/quad/year
decomposition with a month-start day-of-year recovers its components. -/
theorem civilFromDays_reconstruct (z era c q r mp : ℤ)
    (hc1 : 0 ≤ c) (hc2 : c ≤ 3) (hq1 : 0 ≤ q) (hq2 : q ≤ 24)
    (hr1 : 0 ≤ r) (hr2 : r ≤ 3) (hmp1 : 0 ≤ mp) (hmp2 : mp ≤ 11)
    (hz : z = era * 146097 + 36524 * c + 1461 * q + 365 * r + (153 * mp + 2) / 5 - 719468) :
    civilFromDays z =
      (if mp < 10 then (era * 400 + 100 * c + 4 * q + r, mp + 3, 1)
       else (era * 400 + 100 * c + 4 * q + r + 1, mp - 9, 1)) := by
  have hs1 : 0 ≤ (153 * mp + 2) / 5 := by omega
  have hs2 : (153 * mp + 2) / 5 ≤ 337 := by omega
  subst hz
  simp only [civilFromDays]
  generalize hg1 : (era * 146097 + 36524 * c + 1461 * q + 365 * r + (153 * mp + 2) / 5 -
      719468 + 719468) / 146097 = era2
  have he : era2 = era := by omega
  subst he
  generalize hg2 : era2 * 146097 + 36524 * c + 1461 * q + 365 * r + (153 * mp + 2) / 5 -
      719468 + 719468 - era2 * 146097 = doe
  have hd : doe = 36524 * c + 1461 * q + 365 * r + (153 * mp + 2) / 5 := by omega
  subst hd
  generalize hg3 : min ((36524 * c + 1461 * q + 365 * r + (153 * mp + 2) / 5) / 36524) 3 = c2
  have hce : c2 = c := by omega
  subst hce
  generalize hg4 : 36524 * c2 + 1461 * q + 365 * r + (153 * mp + 2) / 5 - 36524 * c2 = dc
  have hdc : dc = 1461 * q + 365 * r + (153 * mp + 2) / 5 := by omega
  subst hdc
  generalize hg5 : min ((1461 * q + 365 * r + (153 * mp + 2) / 5) / 1461) 24 = q2
  have hqe : q2 = q := by omega
  subst hqe
  generalize hg6 : 1461 * q2 + 365 * r + (153 * mp + 2) / 5 - 1461 * q2 = dq
  have hdq : dq = 365 * r + (153 * mp + 2) / 5 := by omega
  subst hdq
  generalize hg7 : min ((365 * r + (153 * mp + 2) / 5) / 365) 3 = r2
  have hre : r2 = r := by omega
  subst hre
  generalize hg8 : 365 * r2 + (153 * mp + 2) / 5 - 365 * r2 = doy
  have hdoy : doy = (153 * mp + 2) / 5 := by omega
  subst hdoy
  generalize hg9 : (5 * ((153 * mp + 2) / 5) + 2) / 153 = mp2
  have hmpe : mp2 = mp := by omega
  subst hmpe
  clear hg1 hg2 hg3 hg4 hg5 hg6 hg7 hg8
  by_cases h10 : mp2 < 10
  · rw [if_pos h10, if_pos h10, if_neg (by omega)]
    simp only [Prod.mk.injEq]
    exact ⟨by omega, trivial, by omega⟩
  · rw [if_neg h10, if_neg h10, if_pos (by omega)]
    simp only [Prod.mk.injEq]
    exact ⟨by omega, trivial, by omega⟩

/-- Year-of-era decomposition into century / 4-year block / year. -/
theorem yoe_decomp (e : ℤ) (_h1 : 0 ≤ e) (_h2 : e ≤ 399) :
    e * 365 + e / 4 - e / 100 =
      36524 * (e / 100) + 1461 * (e % 100 / 4) + 365 * (e % 100 % 4) := by
  omega

set_option maxHeartbeats 1000000 in
/-- The civil conversion is also a left inverse on first-of-month
dates. -/
theorem civil_first_of_month (y m : ℤ) (h1 : 1 ≤ m) (h2 : m ≤ 12) :
    civilFromDays (daysFromCivil y m 1) = (y, m, 1) := by
  by_cases hm : m ≤ 2
  · have hz : daysFromCivil y m 1 =
        (y - 1) / 400 * 146097 + 36524 * ((y - 1 - (y - 1) / 400 * 400) / 100) +
          1461 * ((y - 1 - (y - 1) / 400 * 400) % 100 / 4) +
          365 * ((y - 1 - (y - 1) / 400 * 400) % 100 % 4) +
          (153 * (m + 9) + 2) / 5 - 719468 := by
      simp only [daysFromCivil, if_pos hm]
      generalize hge : (y - 1) / 400 = era
      generalize hgE : y - 1 - era * 400 = e
      have hEb : 0 ≤ e ∧ e ≤ 399 := by omega
      have hA := yoe_decomp e hEb.1 hEb.2
      omega
    rw [civilFromDays_reconstruct (daysFromCivil y m 1) ((y - 1) / 400)
        ((y - 1 - (y - 1) / 400 * 400) / 100) ((y - 1 - (y - 1) / 400 * 400) % 100 / 4)
        ((y - 1 - (y - 1) / 400 * 400) % 100 % 4) (m + 9)
        (by omega) (by omega) (by omega) (by omega) (by omega) (by omega)
        (by omega) (by omega) hz]
    rw [if_neg (by omega)]
    have hco : 100 * ((y - 1 - (y - 1) / 400 * 400) / 100) +
        4 * ((y - 1 - (y - 1) / 400 * 400) % 100 / 4) +
        (y - 1 - (y - 1) / 400 * 400) % 100 % 4 = y - 1 - (y - 1) / 400 * 400 := by omega
    rw [Prod.mk.injEq, Prod.mk.injEq]
    exact ⟨by omega, by omega, by omega⟩
  · have hz : daysFromCivil y m 1 =
        y / 400 * 146097 + 36524 * ((y - y / 400 * 400) / 100) +
          1461 * ((y - y / 400 * 400) % 100 / 4) +
          365 * ((y - y / 400 * 400) % 100 % 4) +
          (153 * (m - 3) + 2) / 5 - 719468 := by
      simp only [daysFromCivil, if_neg hm]
      generalize hge : y / 400 = era
      generalize hgE : y - era * 400 = e
      have hEb : 0 ≤ e ∧ e ≤ 399 := by omega
      have hA := yoe_decomp e hEb.1 hEb.2
      omega
    rw [civilFromDays_reconstruct (daysFromCivil y m 1) (y / 400)
        ((y - y / 400 * 400) / 100) ((y - y / 400 * 400) % 100 / 4)
        ((y - y / 400 * 400) % 100 % 4) (m - 3)
        (by omega) (by omega) (by omega) (by omega) (by omega) (by omega)
        (by omega) (by omega) hz]
    rw [if_pos (by omega)]
    have hco : 100 * ((y - y / 400 * 400) / 100) +
        4 * ((y - y / 400 * 400) % 100 / 4) +
        (y - y / 400 * 400) % 100 % 4 = y - y / 400 * 400 := by omega
    rw [Prod.mk.injEq, Prod.mk.injEq]
    exact ⟨by omega, by omega, by omega⟩

/-- `new Date(y, m - 1, d)` lands on the civil date `(y, m, d)`. -/
theorem mkDayNumber_eq_daysFromCivil (y m d : ℤ) (h1 : 1 ≤ m) (h2 : m ≤ 12) :
    mkDayNumber y (m - 1) d = daysFromCivil y m d := by
  have e1 : (y * 12 + (m - 1)) / 12 = y := by omega
  have e2 : (y * 12 + (m - 1)) % 12 + 1 = m := by omega
  simp only [mkDayNumber, e1, e2]
  have := daysFromCivil_linear y m d
  omega

/-- Civil date of the first of an arbitrary (possibly overflowed)
month. -/
theorem civil_mkDayNumber_first (y mi : ℤ) :
    civilFromDays (mkDayNumber y mi 1) =
      ((y * 12 + mi) / 12, (y * 12 + mi) % 12 + 1, 1) := by
  have h1 : 1 ≤ (y * 12 + mi) % 12 + 1 := by omega
  have h2 : (y * 12 + mi) % 12 + 1 ≤ 12 := by omega
  have e0 : mkDayNumber y mi 1 =
      daysFromCivil ((y * 12 + mi) / 12) ((y * 12 + mi) % 12 + 1) 1 := by
    simp only [mkDayNumber]
    omega
  rw [e0, civil_first_of_month _ _ h1 h2]

/-- Rebuilding a date from the civil components of `t` with a shifted
day component shifts the day number by the same amount (the `setDate` /
date-underflow normalisation used by the weekly window). -/
theorem mkDayNumber_civil_shift (t x : ℤ) :
    mkDayNumber (civilFromDays t).1 ((civilFromDays t).2.1 - 1) x =
      t + (x - (civilFromDays t).2.2) := by
  obtain ⟨b1, b2, b3, b4⟩ := civilFromDays_bounds t
  rw [mkDayNumber_eq_daysFromCivil _ _ _ b1 b2]
  have h1 := daysFromCivil_linear (civilFromDays t).1 (civilFromDays t).2.1 x
  have h2 := daysFromCivil_linear (civilFromDays t).1 (civilFromDays t).2.1 (civilFromDays t).2.2
  have h3 := days_civil_roundtrip t
  omega

end ProteinTracker

namespace ProteinTracker

/-!
### Store-operation lemmas
-/

/-- An edit keeps the id of every record. -/
theorem applyEdit_map_id (eid name : String) (protein : JSN) (cat : String)
    (img : Option String) (meals : List MealLog) :
    (applyEdit eid name protein cat img meals).map MealLog.id = meals.map MealLog.id := by
  induction meals with
  | nil => rfl
  | cons hd tl ih =>
    simp only [applyEdit, List.map_cons] at ih ⊢
    by_cases h : hd.id = eid <;> simp [h, ih]

/-- An edit keeps the timestamp of every record. -/
theorem applyEdit_map_timestamp (eid name : String) (protein : JSN) (cat : String)
    (img : Option String) (meals : List MealLog) :
    (applyEdit eid name protein cat img meals).map MealLog.timestamp =
      meals.map MealLog.timestamp := by
  induction meals with
  | nil => rfl
  | cons hd tl ih =>
    simp only [applyEdit, List.map_cons] at ih ⊢
    by_cases h : hd.id = eid <;> simp [h, ih]

/-- An edit for an id absent from the store is the identity. -/
theorem applyEdit_not_mem (eid name : String) (protein : JSN) (cat : String)
    (img : Option String) (meals : List MealLog) (h : eid ∉ meals.map MealLog.id) :
    applyEdit eid name protein cat img meals = meals := by
  induction meals with
  | nil => rfl
  | cons hd tl ih =>
    simp only [List.map_cons, List.mem_cons, not_or] at h
    simp only [applyEdit, List.map_cons] at ih ⊢
    rw [if_neg (fun he => h.1 he.symm)]
    rw [ih h.2]

/-- Deleting an id absent from the store is the identity. -/
theorem deleteMeal_not_mem (id : String) (meals : List MealLog)
    (h : id ∉ meals.map MealLog.id) :
    deleteMeal id meals = meals := by
  induction meals with
  | nil => rfl
  | cons hd tl ih =>
    simp only [List.map_cons, List.mem_cons, not_or] at h
    simp only [deleteMeal, List.filter_cons] at ih ⊢
    rw [if_pos (by simp [bne_iff_ne]; exact fun he => h.1 he.symm)]
    rw [ih h.2]

/-- Deletion never duplicates ids. -/
theorem deleteMeal_nodup (id : String) (meals : List MealLog)
    (h : (meals.map MealLog.id).Nodup) :
    ((deleteMeal id meals).map MealLog.id).Nodup := by
  induction meals with
  | nil => simp [deleteMeal]
  | cons hd tl ih =>
    simp only [List.map_cons, List.nodup_cons] at h
    simp only [deleteMeal, List.filter_cons] at ih ⊢
    split
    · simp only [List.map_cons, List.nodup_cons]
      constructor
      · intro hm
        apply h.1
        obtain ⟨x, hx, he⟩ := List.mem_map.mp hm
        exact List.mem_map.mpr ⟨x, List.mem_of_mem_filter hx, he⟩
      · exact ih h.2
    · exact ih h.2

/-!
### Claim C6 — update is a frame: only the four mutable fields of the
matching record change
-/

/-- C6: `update(id, patch)` (the edit branch of `handleSaveMeal`)
changes only `foodName`, `proteinGrams`, `category`, `imageUrl` of
records whose id matches: the id and timestamp sequences are unchanged,
records with a different id are exactly the ones before, and matching
records are exactly the patched ones. -/
theorem c6_update_frame (eid name : String) (protein : JSN) (cat : String)
    (img : Option String) (meals : List MealLog) :
    (applyEdit eid name protein cat img meals).map MealLog.id = meals.map MealLog.id ∧
    (applyEdit eid name protein cat img meals).map MealLog.timestamp =
      meals.map MealLog.timestamp ∧
    (applyEdit eid name protein cat img meals).filter (fun r => r.id != eid) =
      meals.filter (fun r => r.id != eid) ∧
    (applyEdit eid name protein cat img meals).filter (fun r => r.id == eid) =
      (meals.filter (fun r => r.id == eid)).map fun old =>
        { old with foodName := name, proteinGrams := protein,
                   category := cat, imageUrl := img } := by
  induction meals with
  | nil => exact ⟨rfl, rfl, rfl, rfl⟩
  | cons hd tl ih =>
    obtain ⟨ih1, ih2, ih3, ih4⟩ := ih
    simp only [applyEdit, List.map_cons, List.filter_cons] at ih1 ih2 ih3 ih4 ⊢
    by_cases h : hd.id = eid
    · simp [h, ih1, ih2, ih3, ih4]
    · simp [h, ih1, ih2, ih3, ih4]

end ProteinTracker

namespace ProteinTracker

/-!
### Claim C7 — update/delete on an unknown id leave the store unchanged
-/

/-- C7: saving an edit for an id not in the store (the `update` path) and
deleting an id not in the store both leave the store exactly as it was —
the `NotFoundError` of the specification is this silent no-op.  (When the
commit validation fails the save path returns early, also unchanged.) -/
theorem c7_missing_id_noop (id : String) (meals : List MealLog)
    (h : id ∉ meals.map MealLog.id) (name protein cat : String) (img : Option String)
    (date : ℤ × ℤ × ℤ) (newId : String) (nowMs tz : ℤ) :
    handleSaveMeal name protein cat img date (some id) newId nowMs tz meals = meals ∧
    deleteMeal id meals = meals := by
  constructor
  · simp only [handleSaveMeal]
    split
    · rfl
    · exact applyEdit_not_mem id name (jsRound (parseFloat protein)) cat img meals h
  · exact deleteMeal_not_mem id meals h

/-- Witness for C7 at a concrete store and missing id. -/
theorem c7_witness :
    "zz" ∉ ([⟨"a1", 0, "egg", jsInt 6, "Other", none⟩] : List MealLog).map MealLog.id ∧
    handleSaveMeal "x" "7" "Other" none (2024, 3, 15) (some "zz") "id1"
        (19797 * 86400000) 0 [⟨"a1", 0, "egg", jsInt 6, "Other", none⟩] =
      [⟨"a1", 0, "egg", jsInt 6, "Other", none⟩] ∧
    deleteMeal "zz" [⟨"a1", 0, "egg", jsInt 6, "Other", none⟩] =
      [⟨"a1", 0, "egg", jsInt 6, "Other", none⟩] := by
  refine ⟨by decide, ?_⟩
  have h := c7_missing_id_noop "zz" [⟨"a1", 0, "egg", jsInt 6, "Other", none⟩]
    (by decide) "x" "7" "Other" none (2024, 3, 15) "id1" (19797 * 86400000) 0
  exact h

/-!
### Claim C9 — id uniqueness
-/

/-- C9 counterexample: `create` does not check the generated id against
the store, so when the random id collides with an existing one the store
ends up with two records sharing an id. -/
theorem c9_counterexample :
    (handleSaveMeal "x" "5" "Other" none (2024, 3, 15) none "abc"
        (19797 * 86400000) 0 [⟨"abc", 0, "egg", jsInt 6, "Other", none⟩]).map MealLog.id =
      ["abc", "abc"] ∧
    ¬ ((handleSaveMeal "x" "5" "Other" none (2024, 3, 15) none "abc"
        (19797 * 86400000) 0 [⟨"abc", 0, "egg", jsInt 6, "Other", none⟩]).map
          MealLog.id).Nodup := by
  decide

/-- C9 amended: uniqueness is conditional on the random draw — if the
supplied id is fresh, `create` (both commit paths) preserves id
uniqueness, and `update`/`delete` never introduce a duplicate id. -/
theorem c9_amended_id_uniqueness (meals : List MealLog)
    (hnd : (meals.map MealLog.id).Nodup) (newId : String)
    (hfresh : newId ∉ meals.map MealLog.id) (name protein cat : String)
    (img : Option String) (date : ℤ × ℤ × ℤ) (nowMs tz : ℤ)
    (resProtein : JSN) (eid : String) :
    ((handleSaveMeal name protein cat img date none newId nowMs tz meals).map
      MealLog.id).Nodup ∧
    ((analyzeMealCommit name resProtein cat img newId nowMs meals).map MealLog.id).Nodup ∧
    (applyEdit eid name (jsRound (parseFloat protein)) cat img meals).map MealLog.id =
      meals.map MealLog.id ∧
    ((deleteMeal eid meals).map MealLog.id).Nodup := by
  refine ⟨?_, ?_, applyEdit_map_id _ _ _ _ _ _, deleteMeal_nodup _ _ hnd⟩
  · simp only [handleSaveMeal]
    split
    · exact hnd
    · simp only [List.map_cons, List.nodup_cons]
      exact ⟨hfresh, hnd⟩
  · simp only [analyzeMealCommit, List.map_cons, List.nodup_cons]
    exact ⟨hfresh, hnd⟩

/-- Witness for C9 at a concrete store and fresh id. -/
theorem c9_witness :
    (([⟨"a1", 0, "egg", jsInt 6, "Other", none⟩] : List MealLog).map MealLog.id).Nodup ∧
    "b2" ∉ ([⟨"a1", 0, "egg", jsInt 6, "Other", none⟩] : List MealLog).map MealLog.id ∧
    ((handleSaveMeal "x" "5" "Other" none (2024, 3, 15) none "b2" (19797 * 86400000) 0
        [⟨"a1", 0, "egg", jsInt 6, "Other", none⟩]).map MealLog.id).Nodup := by
  refine ⟨by decide, by decide, ?_⟩
  exact (c9_amended_id_uniqueness [⟨"a1", 0, "egg", jsInt 6, "Other", none⟩] (by decide)
    "b2" (by decide) "x" "5" "Other" none (2024, 3, 15) (19797 * 86400000) 0
    (jsInt 1) "zz").1

/-!
### Claim C2 — commit validation
-/

/-- C2 counterexample: the commit guard is only
`!foodName.trim() || isNaN(parseFloat(protein))`; a negative protein
string passes it and is committed as a negative number, `"Infinity"`
passes it and is committed as Infinity, and the part_000 recognition
path commits entirely unvalidated values (here NaN protein and an empty
food name). -/
theorem c2_counterexample :
    (handleSaveMeal "x" "-5" "Other" none (2024, 3, 15) none "id1"
        (19797 * 86400000) 0 []).map (fun m => m.proteinGrams) = [jsInt (-5)] ∧
    handleSaveMeal "x" "-5" "Other" none (2024, 3, 15) none "id1"
        (19797 * 86400000) 0 [] ≠ [] ∧
    (handleSaveMeal "x" "Infinity" "Other" none (2024, 3, 15) none "id1"
        (19797 * 86400000) 0 []).map (fun m => m.proteinGrams) = [JSN.pinf] ∧
    (analyzeMealCommit "" JSN.nan "Other" none "id2" 0 []).map
      (fun m => (m.foodName, m.proteinGrams)) = [("", JSN.nan)] := by
  decide

/-- C2 amended: commit mutates the store only when `foodName` is
non-empty after trimming and `parseFloat(proteinGrams)` is not NaN (with
no sign or finiteness check); every failing input leaves the store
unchanged; a commit stores `Math.round` of the parsed value, which is an
integer whenever the parse is finite but may be negative or infinite. -/
theorem c2_amended_commit_validation (name p cat : String) (img : Option String)
    (date : ℤ × ℤ × ℤ) (eid : Option String) (newId : String) (nowMs tz : ℤ)
    (meals : List MealLog) :
    (trimS name = "" ∨ parseFloat p = JSN.nan →
      handleSaveMeal name p cat img date eid newId nowMs tz meals = meals) ∧
    (trimS name ≠ "" → parseFloat p ≠ JSN.nan →
      handleSaveMeal name p cat img date none newId nowMs tz meals =
        { id := newId, timestamp := newMealTimestamp date nowMs tz, foodName := name,
          proteinGrams := jsRound (parseFloat p), category := cat, imageUrl := img } :: meals ∧
      (∀ i, handleSaveMeal name p cat img date (some i) newId nowMs tz meals =
        applyEdit i name (jsRound (parseFloat p)) cat img meals) ∧
      (∀ q : Frac, parseFloat p = JSN.num q →
        ∃ k : ℤ, jsRound (parseFloat p) = jsInt k)) := by
  constructor
  · intro h
    simp only [handleSaveMeal]
    rw [if_pos h]
  · intro h1 h2
    refine ⟨?_, ?_, ?_⟩
    · simp only [handleSaveMeal]
      rw [if_neg (by tauto)]
    · intro i
      simp only [handleSaveMeal]
      rw [if_neg (by tauto)]
    · intro q hq
      rw [hq]
      exact ⟨(2 * q.n + q.d) / (2 * q.d), rfl⟩

/-- Witness for C2 at a concrete passing input. -/
theorem c2_witness :
    trimS "x" ≠ "" ∧ parseFloat "7" ≠ JSN.nan ∧
    handleSaveMeal "x" "7" "Other" none (2024, 3, 15) none "id1" (19797 * 86400000) 0 [] =
      { id := "id1", timestamp := newMealTimestamp (2024, 3, 15) (19797 * 86400000) 0,
        foodName := "x", proteinGrams := jsRound (parseFloat "7"), category := "Other",
        imageUrl := none } :: [] := by
  refine ⟨by decide, by decide, ?_⟩
  exact ((c2_amended_commit_validation "x" "7" "Other" none (2024, 3, 15) none "id1"
    (19797 * 86400000) 0 []).2 (by decide) (by decide)).1

/-!
### Claim C3 — goal validation
-/

/-- C3 counterexample: the part_000 goal input applies no validation at
all — typing `-5` sets the goal to -5 whatever it was before — and the
App.tsx handler truncates a non-integer input `2.9` to 2 and accepts it
instead of rejecting it. -/
theorem c3_counterexample :
    goalOnChange "-5" = jsInt (-5) ∧ jsInt (-5) ≠ jsInt 60 ∧
    goalOnBlur (jsInt 60) "2.9" = jsInt 2 ∧ jsInt 2 ≠ jsInt 60 := by
  decide

/-- C3 amended: in the App.tsx variant, any input whose `parseInt` is
NaN or non-positive is rejected and the goal keeps its prior value (the
part_000 variant sets the goal to `Number(value) || 0` unvalidated, and
non-integer decimal strings are truncated by `parseInt` before the
positivity test). -/
theorem c3_amended_goal_validation (prior : JSN) (s : String)
    (h : parseIntDec s = none ∨ ∃ n : ℤ, parseIntDec s = some n ∧ n ≤ 0) :
    goalOnBlur prior s = prior := by
  unfold goalOnBlur
  rcases h with h | ⟨n, hn, hle⟩
  · rw [h]
  · rw [hn]
    simp only []
    rw [if_neg (by omega)]

/-- Witness for C3: `setGoal(-5)` is rejected and the goal is still the
prior value. -/
theorem c3_witness :
    (parseIntDec "-5" = some (-5) ∧ (-5 : ℤ) ≤ 0) ∧
    goalOnBlur (jsInt 60) "-5" = jsInt 60 := by
  refine ⟨⟨by decide, by decide⟩, ?_⟩
  exact c3_amended_goal_validation (jsInt 60) "-5" (Or.inr ⟨-5, by decide, by decide⟩)

end ProteinTracker

namespace ProteinTracker

/-!
### Claim C4 — weekly window is always Monday..Sunday of the current week
-/

/-- C4: for every "now" and timezone, `weeklySummaries` has exactly 7
entries whose date keys are the 7 consecutive days starting at the
Monday of the week containing now (so now lies between that Monday and
Monday + 6), each with `goalForBucket` equal to the current goal. -/
theorem c4_weekly_seven_days (meals : List MealLog) (goalv : JSN) (nowMs tz : ℤ) :
    (weeklySummaries meals goalv nowMs tz).length = 7 ∧
    (weeklySummaries meals goalv nowMs tz).map DaySummary.date =
      (List.range 7).map (fun (i : ℕ) => civilFromDays (mondayOf (localDay tz nowMs) + (i : ℤ))) ∧
    dayOfWeek (mondayOf (localDay tz nowMs)) = 1 ∧
    mondayOf (localDay tz nowMs) ≤ localDay tz nowMs ∧
    localDay tz nowMs ≤ mondayOf (localDay tz nowMs) + 6 ∧
    (weeklySummaries meals goalv nowMs tz).map DaySummary.goal =
      List.replicate 7 goalv := by
  refine ⟨by simp only [weeklySummaries, List.length_map, List.length_range], ?_, ?_, ?_, ?_, ?_⟩
  · simp only [weeklySummaries, List.map_map]
    apply List.map_congr_left
    intro i hi
    simp only [Function.comp_apply]
    rw [mkDayNumber_civil_shift, mkDayNumber_civil_shift]
    congr 1
    simp only [mondayOf, dayOfWeek]
    split <;> omega
  · simp only [mondayOf, dayOfWeek]
    omega
  · simp only [mondayOf, dayOfWeek]
    omega
  · simp only [mondayOf, dayOfWeek]
    omega
  · simp only [weeklySummaries, List.map_map]
    rfl

/-!
### Claim C5 — monthly window
-/

/-- C5 counterexample: the App.tsx variant emits 5 monthly summaries,
not 6. -/
theorem c5_counterexample :
    (monthlySummariesApp [] (jsInt 1) (19797 * 86400000) 0).length = 5 ∧
    ¬ (monthlySummariesApp [] (jsInt 1) (19797 * 86400000) 0).length = 6 := by
  decide

/-- C5 amended: the part_000 variant returns exactly 6 summaries, one
per month for the current local month and the 5 preceding it, in
chronological order (oldest first); the App.tsx variant instead returns
5 summaries walking from 2 months before to 2 months after the current
month. -/
theorem c5_amended_month_window (meals : List MealLog) (goalv : JSN) (nowMs tz : ℤ) :
    (monthlySummariesPart meals goalv nowMs tz).length = 6 ∧
    (monthlySummariesPart meals goalv nowMs tz).map MonthSummary.date =
      (List.range 6).map (fun (j : ℕ) => monthKeyOfNum (localMonthNum tz nowMs - 5 + (j : ℤ))) ∧
    (monthlySummariesApp meals goalv nowMs tz).length = 5 := by
  refine ⟨by simp only [monthlySummariesPart, List.length_map, List.length_range], ?_,
    by simp only [monthlySummariesApp, List.length_map, List.length_range]⟩
  simp only [monthlySummariesPart, List.map_map]
  apply List.map_congr_left
  intro j hj
  simp only [Function.comp_apply]
  rw [civil_mkDayNumber_first]
  simp only [monthKeyOfNum, localMonthNum, localCivil]
  rw [Prod.mk.injEq]
  constructor
  · omega
  · omega

/-!
### Claim C1 — monthly goalForBucket
-/

/-- C1 (code bug in part_000): evaluating the two monthly views with
goal 1 and now = 2024-03-15T12:00Z (UTC timezone): the part_000 variant
prices every month at goal × 30 — February 2024, a 29-day leap month,
included — while the App.tsx variant multiplies by the actual month
lengths (29 for February 2024). -/
theorem c1_part000_feb2024_goal30 :
    (monthlySummariesPart [] (jsInt 1) (19797 * 86400000 + 43200000) 0).map
        (fun s => (s.date, s.goal)) =
      [((2023, 10), jsInt 30), ((2023, 11), jsInt 30), ((2023, 12), jsInt 30),
       ((2024, 1), jsInt 30), ((2024, 2), jsInt 30), ((2024, 3), jsInt 30)] ∧
    (monthlySummariesApp [] (jsInt 1) (19797 * 86400000 + 43200000) 0).map
        (fun s => (s.date, s.goal)) =
      [((2024, 1), jsInt 31), ((2024, 2), jsInt 29), ((2024, 3), jsInt 31),
       ((2024, 4), jsInt 30), ((2024, 5), jsInt 31)] ∧
    jsInt 30 ≠ jsInt 29 := by
  decide

/-!
### Claim C8 — bucket keys and timezones
-/

/-- C8 counterexample: in the App.tsx variant a record stamped
2024-02-29T15:30Z viewed from UTC+9 has local day key 2024-03-01 but is
classified (via `toISOString().slice(0, 7)`) into the month bucket
2024-02 — a different month than its daily bucket. -/
theorem c8_counterexample :
    localDayKey 32400000 (19782 * 86400000 + 55800000) = (2024, 3, 1) ∧
    utcMonthKey (19782 * 86400000 + 55800000) = (2024, 2) ∧
    utcMonthKey (19782 * 86400000 + 55800000) ≠
      ((localDayKey 32400000 (19782 * 86400000 + 55800000)).1,
        (localDayKey 32400000 (19782 * 86400000 + 55800000)).2.1) := by
  decide

/-- C8 amended: the day key is always the local civil date; the
part_000 monthly filter classifies a record by exactly the year/month of
its local day key, for every timezone; the App.tsx monthly filter uses
the UTC month, which agrees with the local day key's month only when
the offset is zero. -/
theorem c8_amended_local_buckets (tz t : ℤ) :
    partMealMonthKey tz t = ((localDayKey tz t).1, (localDayKey tz t).2.1) ∧
    utcMonthKey t = ((localDayKey 0 t).1, (localDayKey 0 t).2.1) := by
  constructor
  · rfl
  · simp only [utcMonthKey, localDayKey, localCivil, localDay, add_zero]

/-!
### Claim C10 — unvalidated initial goal and NaN progress
-/

/-- C10: the goal loaded at startup is not re-validated — the persisted
string `"abc"` parses to NaN and becomes the initial goal, after which
`progressPercent` (with an empty store, i.e. today's total 0) is NaN
rather than a value in [0, 100]; a persisted `"-5"` likewise yields the
non-positive goal -5. -/
theorem c10_unvalidated_initial_goal :
    initGoal 60 (some "abc") = JSN.nan ∧
    progressPercent (todayProtein [] 0 (19797 * 86400000)) (initGoal 60 (some "abc")) =
      JSN.nan ∧
    initGoal 60 (some "-5") = jsInt (-5) := by
  decide

end ProteinTracker

namespace ProteinTracker

/-!
### Sanity anchors: concrete evaluations of the embedded definitions
-/

example : civilFromDays 0 = (1970, 1, 1) := by decide
example : civilFromDays 19782 = (2024, 2, 29) := by decide
example : daysFromCivil 2024 3 15 = 19797 := by decide
example : dayOfWeek 19797 = 5 := by decide
example : parseIntDec "-5" = some (-5) := by decide
example : parseIntDec "2.9" = some 2 := by decide
example : parseIntDec "abc" = none := by decide
example : parseFloat "2.9" = JSN.num ⟨29, 10⟩ := by decide
example : parseFloat "-Infinity" = JSN.ninf := by decide
example : jsNumber "12x" = JSN.nan := by decide
example : jsRound (JSN.num ⟨-9, 2⟩) = jsInt (-4) := by decide
example : trimS "  x " = "x" := by decide
example : (weeklySummaries [] (jsInt 1) (19797 * 86400000) 0).map DaySummary.date =
    [(2024, 3, 11), (2024, 3, 12), (2024, 3, 13), (2024, 3, 14), (2024, 3, 15),
     (2024, 3, 16), (2024, 3, 17)] := by decide

end ProteinTracker
